import Mathlib

/-!
Verification development for the openmina node (Rust sources).

Each section shallowly embeds the part of the Rust source that one claim is
about, and proves the claim (or a counterexample) over that embedding.
Machine integers are modelled as `Nat` with explicit `% 2^w` where the source
performs wrapping casts; fallible Rust functions returning `Result` are
modelled with `Except`; `&mut` state is modelled by explicit state passing.
External crates that the specification declares opaque (Poseidon, base58,
curve arithmetic, the bin-prot codec) are modelled as parameters, and
repository code that is referenced but not present in the source tree is
modelled from the specification (marked `Modelled from the spec:`).
-/

namespace Spec2Proof

/-! ## Byte helpers (shared) -/

/-- Big-endian bytes of a `u32` value, as in `u32::to_be_bytes`. -/
def be32 (n : Nat) : List Nat :=
  [n / 2 ^ 24 % 256, n / 2 ^ 16 % 256, n / 2 ^ 8 % 256, n % 256]

/-- Big-endian interpretation of a 4-byte list, as in `u32::from_be_bytes`. -/
def fromBe32 (l : List Nat) : Nat :=
  l.foldl (fun acc b => acc * 256 + b) 0

/-! ## C7 : WebRTC channel framing
    Source: `p2p/src/service_impl/webrtc/mod.rs`
    (`MsgBuffer::encode` lines 450-459 and `process_msg` lines 613-654).

    The bin-prot message codec (`ChannelMsg::encode` / `ChannelMsg::decode`)
    and the per-channel `ChannelId::max_msg_size` table live outside the
    provided sources; both are passed as parameters (`payload` stands for the
    already-encoded message bytes, `decode` for the codec, `maxMsgSize` for
    the channel's limit). -/

/-- `MsgBuffer::encode`: 4-byte big-endian length prefix (`buf.len() as u32`,
    a wrapping cast, hence the `% 2^32`) followed by the payload bytes. -/
def msgBufferEncode (payload : List Nat) : List Nat :=
  be32 (payload.length % 2 ^ 32) ++ payload

/-- The error string built by `process_msg` when the declared frame length
    exceeds the channel limit. -/
def channelMsgLenOverLimitErr (len limit : Nat) : String :=
  "ChannelMsgLenOverLimit; len: " ++ toString len ++ ", limit: " ++ toString limit

/-- Result of one `process_msg` step: the `Result<Option<ChannelMsg>, String>`
    return value together with the final values of the three `&mut`
    parameters (`buf`, `len`, and the remaining input slice `msg`). -/
structure ProcessMsgResult (CM : Type) where
  result : Except String (Option CM)
  buf : List Nat
  len : Nat
  rest : List Nat

/-- Shallow embedding of `process_msg`. A frame starts when `buf` is empty:
    the first 4 input bytes are the declared big-endian length, checked
    against the channel limit; otherwise the previously stored `len` is used.
    Bytes are buffered until a full frame is available, then decoded. -/
def process_msg {CM : Type} (decode : List Nat → Except String CM)
    (maxMsgSize : Nat) (buf : List Nat) (len : Nat) (msg : List Nat) :
    ProcessMsgResult CM :=
  if buf.isEmpty then
    if msg.length < 4 then
      ⟨.error "WebRTCMessageTooSmall", buf, len, msg⟩
    else
      let declared := fromBe32 (msg.take 4)
      let msg1 := msg.drop 4
      if maxMsgSize < declared then
        ⟨.error (channelMsgLenOverLimitErr declared maxMsgSize), buf, declared, msg1⟩
      else
        processMsgBody decode declared buf msg1
  else
    processMsgBody decode len buf msg
where
  /-- The shared tail of `process_msg` after the frame length is known. -/
  processMsgBody (decode : List Nat → Except String CM)
      (len : Nat) (buf msg : List Nat) : ProcessMsgResult CM :=
    let bytesLeft := len - buf.length
    if msg.length < bytesLeft then
      ⟨.ok none, buf ++ msg, len, []⟩
    else
      let buf2 := buf ++ msg.take bytesLeft
      let msg2 := msg.drop bytesLeft
      match decode buf2 with
      | .error e => ⟨.error e, buf2, len, msg2⟩
      | .ok m => ⟨.ok (some m), [], len, msg2⟩

/-- C7: on a WebRTC channel every outbound message is framed as a 4-byte
    big-endian length followed by exactly that many payload bytes, and an
    inbound frame whose declared length exceeds the channel's `max_msg_size`
    makes `process_msg` return the `ChannelMsgLenOverLimit` error; such a
    frame is never delivered as a successfully decoded channel message. -/
theorem c7_webrtc_framing {CM : Type} (decode : List Nat → Except String CM)
    (maxMsgSize : Nat) (payload msg : List Nat) (len : Nat)
    (hsize : payload.length < 2 ^ 32)
    (hlen4 : 4 ≤ msg.length)
    (hover : maxMsgSize < fromBe32 (msg.take 4)) :
    (msgBufferEncode payload = be32 payload.length ++ payload
      ∧ (msgBufferEncode payload).length = 4 + payload.length)
    ∧ (process_msg decode maxMsgSize [] len msg).result =
        .error (channelMsgLenOverLimitErr (fromBe32 (msg.take 4)) maxMsgSize)
    ∧ ∀ m : CM, (process_msg decode maxMsgSize [] len msg).result ≠ .ok (some m) := by
  refine ⟨⟨?_, ?_⟩, ?_, ?_⟩
  · unfold msgBufferEncode
    rw [Nat.mod_eq_of_lt hsize]
  · unfold msgBufferEncode be32
    simp
    omega
  · unfold process_msg
    simp only [List.isEmpty_nil, if_true]
    rw [if_neg (by omega), if_pos hover]
  · intro m
    unfold process_msg
    simp only [List.isEmpty_nil, if_true]
    rw [if_neg (by omega), if_pos hover]
    simp

/-- Witness for C7 at a concrete frame: declared length 4096 with a channel
    limit of 10. -/
theorem c7_webrtc_framing_witness :
    (msgBufferEncode [7, 8, 9] = be32 3 ++ [7, 8, 9]
      ∧ (msgBufferEncode [7, 8, 9]).length = 4 + 3)
    ∧ (process_msg (fun _ => Except.error "nodecode" (α := Unit)) 10 [] 0
        [0, 0, 16, 0]).result =
        .error (channelMsgLenOverLimitErr (fromBe32 ([0, 0, 16, 0].take 4)) 10)
    ∧ ∀ m : Unit, (process_msg (fun _ => Except.error "nodecode" (α := Unit)) 10 [] 0
        [0, 0, 16, 0]).result ≠ .ok (some m) :=
  c7_webrtc_framing (fun _ => Except.error "nodecode") 10 [7, 8, 9] [0, 0, 16, 0] 0
    (by decide) (by decide) (by decide)

/-! ## C9 : TransactionHash Display / FromStr round trip
    Source: `mina-p2p-messages/src/v2/hashing.rs` lines 73-95.

    The `bs58` crate is an external dependency (the spec treats codecs as
    opaque); it is modelled as an encode/decode pair over an abstract encoded
    type `S`, with the library's contract — decoding an encoding with the
    same expected version yields the version byte followed by the payload —
    taken as a hypothesis of the round-trip theorem. -/

/-- A transaction hash: 32 bytes (`Arc<[u8; 32]>`). -/
structure TransactionHash where
  bytes : List Nat
deriving DecidableEq, Repr

/-- Error codes for `bs58::decode::Error`; only `BufferTooSmall` is
    distinguished by the source. -/
inductive B58DecodeError where
  | bufferTooSmall
  | other (code : Nat)
deriving DecidableEq, Repr

/-- `impl fmt::Display for TransactionHash`: a 33-byte buffer initialized to
    `0x20` whose last 32 bytes are the hash, base58-check encoded with
    version byte `0x1D`. -/
def transactionHashDisplay {S : Type} (enc : Nat → List Nat → S)
    (h : TransactionHash) : S :=
  enc 0x1D (0x20 :: h.bytes)

/-- `impl FromStr for TransactionHash`: base58-check decode expecting version
    `0x1D`, then drop the two leading bytes (version and the `0x20` marker)
    and require exactly 32 remaining bytes (`try_into` on `[u8; 32]`). -/
def transactionHashFromStr {S : Type}
    (dec : Nat → S → Except B58DecodeError (List Nat)) (s : S) :
    Except B58DecodeError TransactionHash :=
  match dec 0x1D s with
  | .error e => .error e
  | .ok bytes =>
    let tail := bytes.drop 2
    if tail.length = 32 then .ok ⟨tail⟩ else .error .bufferTooSmall

/-- C9: parsing the Display representation of a `TransactionHash` returns the
    same hash, given the base58-check library contract `hroundtrip`. -/
theorem c9_transaction_hash_roundtrip {S : Type} (enc : Nat → List Nat → S)
    (dec : Nat → S → Except B58DecodeError (List Nat))
    (hroundtrip : ∀ v payload, dec v (enc v payload) = .ok (v :: payload))
    (h : TransactionHash) (hlen : h.bytes.length = 32) :
    transactionHashFromStr dec (transactionHashDisplay enc h) = .ok h := by
  unfold transactionHashFromStr transactionHashDisplay
  rw [hroundtrip]
  simp only [List.drop_succ_cons, List.drop_zero, List.drop]
  rw [if_pos hlen]

/-- Witness for C9 with a concrete 32-byte hash and the identity-style
    base58-check model `enc v p = v :: p`, `dec v s = ok s`. -/
theorem c9_transaction_hash_roundtrip_witness :
    transactionHashFromStr (fun _ s => Except.ok s)
      (transactionHashDisplay (fun v p => v :: p) ⟨List.replicate 32 7⟩) =
      .ok ⟨List.replicate 32 7⟩ :=
  c9_transaction_hash_roundtrip (fun v p => v :: p) (fun _ s => Except.ok s)
    (fun _ _ => rfl) ⟨List.replicate 32 7⟩ (by decide)

/-! ## C5 : snark-pool `InfoReceived` enabling condition
    Source: `node/src/snark_pool/candidate/snark_pool_candidate_actions.rs`
    lines 64-74.

    The snark-pool state types and the `SnarkInfo > SnarkPoolCandidateState`
    partial order live outside the provided sources.
    Modelled from the spec: per-`(PeerId, JobId)` candidate states
    `InfoReceived → WorkFetchPending → WorkReceived → WorkVerifyPending →
    Verified | Invalid`; the comparison is kept as a parameter `cmp` (the
    spec orders by level, then lower fee, then a tie-breaker hash). -/

/-- A snark-work advertisement: `SnarkInfo { job_id, fee, prover }`. -/
structure SnarkInfo where
  jobId : Nat
  fee : Nat
  prover : Nat
deriving DecidableEq, Repr

/-- Modelled from the spec: the per-peer candidate lifecycle states
    (`SnarkPoolCandidateState`). -/
inductive SnarkPoolCandidateState where
  | infoReceived (info : SnarkInfo)
  | workFetchPending (info : SnarkInfo) (rpcId : Nat)
  | workReceived (info : SnarkInfo)
  | workVerifyPending (info : SnarkInfo) (verifyId : Nat)
  | verified (info : SnarkInfo)
  | invalid (info : SnarkInfo)
deriving DecidableEq, Repr

/-- The snark-pool portion of the node state consulted by the action:
    outstanding job ids and the `(peer, job) → candidate` table. -/
structure SnarkPoolState where
  jobs : List Nat
  candidates : List ((Nat × Nat) × SnarkPoolCandidateState)

/-- `state.snark_pool.candidates.get(peer_id, job_id)`. -/
def snarkPoolCandidatesGet (st : SnarkPoolState) (peerId jobId : Nat) :
    Option SnarkPoolCandidateState :=
  (st.candidates.find? (fun p => p.1 = (peerId, jobId))).map (·.2)

/-- Enabling condition of `SnarkPoolCandidateAction::InfoReceived`:
    the job id is still in the pool, and either no candidate is stored for
    this `(peer, job)` pair or the new info compares strictly greater
    (`is_none_or(|v| info > v)`); `cmp` is the `PartialOrd` comparison. -/
def infoReceivedIsEnabled (cmp : SnarkInfo → SnarkPoolCandidateState → Bool)
    (st : SnarkPoolState) (peerId : Nat) (info : SnarkInfo) : Bool :=
  st.jobs.contains info.jobId &&
    (match snarkPoolCandidatesGet st peerId info.jobId with
     | none => true
     | some v => cmp info v)

/-- C5: `InfoReceived` is enabled exactly when the advertised job id is still
    present in the snark pool and either no candidate is stored for that
    `(peer, job)` pair or the new info compares strictly greater than the
    stored candidate state. -/
theorem c5_info_received_enabled
    (cmp : SnarkInfo → SnarkPoolCandidateState → Bool)
    (st : SnarkPoolState) (peerId : Nat) (info : SnarkInfo) :
    infoReceivedIsEnabled cmp st peerId info = true ↔
      (info.jobId ∈ st.jobs
        ∧ (snarkPoolCandidatesGet st peerId info.jobId = none
            ∨ ∃ v, snarkPoolCandidatesGet st peerId info.jobId = some v
                ∧ cmp info v = true)) := by
  unfold infoReceivedIsEnabled
  rw [Bool.and_eq_true]
  have hc : (st.jobs.contains info.jobId = true) ↔ info.jobId ∈ st.jobs :=
    List.elem_iff
  rw [hc]
  constructor
  · rintro ⟨hmem, hcand⟩
    refine ⟨hmem, ?_⟩
    cases hget : snarkPoolCandidatesGet st peerId info.jobId with
    | none => exact Or.inl rfl
    | some v =>
      rw [hget] at hcand
      exact Or.inr ⟨v, rfl, hcand⟩
  · rintro ⟨hmem, hcand⟩
    refine ⟨hmem, ?_⟩
    rcases hcand with hnone | ⟨v, hget, hcmp⟩
    · rw [hnone]
    · rw [hget]
      exact hcmp

/-! ## C10 : VRF message hashing is total; invalid epoch seeds collapse to zero
    Source: `vrf/src/message.rs` lines 30-32 (`VrfMessage::hash`) and 91-106
    (`impl ToInputs for VrfMessage`).

    The Poseidon hash itself is opaque (parameter `hashFn` over the built
    input list); `EpochSeed::to_field` is not under the provided sources.
    Modelled from the spec: a field element is a 256-bit prime-field scalar,
    so the 32 seed bytes decode exactly when their little-endian value is
    below the field modulus. -/

/-- One entry appended to the Poseidon `Inputs` accumulator. -/
inductive HashInput where
  | ifield (f : Nat)
  | iu32 (n : Nat)
  | ibool (b : Bool)
deriving DecidableEq, Repr

/-- The Pallas base-field modulus (the node's 256-bit prime field). -/
def pallasModulus : Nat :=
  28948022309329048855892746252171976963363056481941560715954676764349967630337

/-- Modelled from the spec: `EpochSeed::to_field`, which fails exactly when
    the 32 seed bytes are not a canonical field element (value ≥ modulus). -/
def epochSeedToField (seed : Nat) : Except Unit Nat :=
  if seed < pallasModulus then .ok seed else .error ()

/-- `VrfMessage { global_slot: u32, epoch_seed, delegator_index: u64 }`. -/
structure VrfMessage where
  globalSlot : Nat
  epochSeed : Nat
  delegatorIndex : Nat
deriving DecidableEq, Repr

/-- `LEDGER_DEPTH`: the delegator index is appended as 35 bits. -/
def ledgerDepth : Nat := 35

/-- Modelled from the spec: `to_bits::<_, 35>` yields the 35 low-order bits
    of the delegator index, least significant first. -/
def delegatorBits (n : Nat) : List Bool :=
  (List.range ledgerDepth).map (fun i => n.testBit i)

/-- `VrfMessage::to_inputs`: append the epoch seed as a field element —
    substituting zero when `to_field` fails — then the global slot as a u32,
    then the 35 delegator-index bits. -/
def VrfMessage.to_inputs (m : VrfMessage) : List HashInput :=
  let epochSeed :=
    match epochSeedToField m.epochSeed with
    | .ok s => s
    | .error _ => 0
  HashInput.ifield epochSeed :: HashInput.iu32 m.globalSlot ::
    (delegatorBits m.delegatorIndex).map HashInput.ibool

/-- `VrfMessage::hash`: Poseidon (domain `MINA_VRF_MESSAGE`, opaque `hashFn`)
    over the message inputs. Total: it returns a field element for every
    message, never an error. -/
def VrfMessage.hash (hashFn : List HashInput → Nat) (m : VrfMessage) : Nat :=
  hashFn m.to_inputs

/-- C10: when the epoch seed bytes do not decode to a field element,
    `to_inputs` substitutes the zero field element, so hashing is total and
    two messages agreeing on global slot and delegator index but carrying
    different invalid seeds produce identical inputs and identical hashes. -/
theorem c10_vrf_hash_invalid_seed (hashFn : List HashInput → Nat)
    (m1 m2 : VrfMessage)
    (hslot : m1.globalSlot = m2.globalSlot)
    (hidx : m1.delegatorIndex = m2.delegatorIndex)
    (hbad1 : pallasModulus ≤ m1.epochSeed)
    (hbad2 : pallasModulus ≤ m2.epochSeed) :
    m1.to_inputs = VrfMessage.to_inputs ⟨m1.globalSlot, 0, m1.delegatorIndex⟩
    ∧ m1.to_inputs = m2.to_inputs
    ∧ VrfMessage.hash hashFn m1 = VrfMessage.hash hashFn m2 := by
  have h1 : epochSeedToField m1.epochSeed = .error () := by
    unfold epochSeedToField
    rw [if_neg (by omega)]
  have h2 : epochSeedToField m2.epochSeed = .error () := by
    unfold epochSeedToField
    rw [if_neg (by omega)]
  have h0 : epochSeedToField 0 = .ok 0 := by
    unfold epochSeedToField
    rw [if_pos (by unfold pallasModulus; omega)]
  have heq : m1.to_inputs = m2.to_inputs := by
    unfold VrfMessage.to_inputs
    rw [h1, h2, hslot, hidx]
  refine ⟨?_, heq, ?_⟩
  · unfold VrfMessage.to_inputs
    rw [h1, h0]
  · unfold VrfMessage.hash
    rw [heq]

/-- Witness for C10: two distinct non-canonical epoch seeds (modulus and
    modulus + 3) with equal slot and delegator index. -/
theorem c10_vrf_hash_invalid_seed_witness :
    (VrfMessage.mk 5 pallasModulus 9).to_inputs =
      VrfMessage.to_inputs ⟨5, 0, 9⟩
    ∧ (VrfMessage.mk 5 pallasModulus 9).to_inputs =
        (VrfMessage.mk 5 (pallasModulus + 3) 9).to_inputs
    ∧ VrfMessage.hash List.length (VrfMessage.mk 5 pallasModulus 9) =
        VrfMessage.hash List.length (VrfMessage.mk 5 (pallasModulus + 3) 9) :=
  c10_vrf_hash_invalid_seed List.length
    (VrfMessage.mk 5 pallasModulus 9) (VrfMessage.mk 5 (pallasModulus + 3) 9)
    rfl rfl (Nat.le_refl _) (Nat.le_add_right _ _)

/-! ## C2 : `TransitionFrontierSyncAction::BestTipUpdate` enabling condition
    Source: `node/src/transition_frontier/sync/transition_frontier_sync_actions.rs`
    lines 147-198.

    The block type, the sync-state enum with its helpers, `consensus_take`
    and the won-slot / block `PartialOrd` live outside the provided sources.
    Modelled from the spec: the sync FSM states
    `Idle → Init → StakingLedger* → NextEpochLedger* → RootLedger* →
    Blocks* → CommitPending → CommitSuccess → Synced`, each in-flight state
    carrying its target best tip; `consensus_take` and the partial comparison
    of the in-flight won slot against a candidate block are opaque state
    parameters. -/

/-- The parts of a block consulted by the enabling condition: its hash,
    height, genesis flag, producer key and (opaque) consensus state. -/
structure Block where
  hash : Nat
  height : Nat
  isGenesis : Bool
  producer : Nat
  consensus : Nat
deriving DecidableEq, Repr

/-- Modelled from the spec: `TransitionFrontierSyncState`. In-flight states
    carry the sync-target best tip. -/
inductive SyncState where
  | idle
  | init (bestTip : Block)
  | stakingLedgerPending (bestTip : Block)
  | stakingLedgerSuccess (bestTip : Block)
  | nextEpochLedgerPending (bestTip : Block)
  | nextEpochLedgerSuccess (bestTip : Block)
  | rootLedgerPending (bestTip : Block)
  | rootLedgerSuccess (bestTip : Block)
  | blocksPending (bestTip : Block)
  | blocksSuccess (bestTip : Block)
  | commitPending (bestTip : Block)
  | commitSuccess (bestTip : Block)
  | synced
deriving DecidableEq, Repr

/-- `TransitionFrontierSyncState::is_pending`: a sync is in flight (neither
    idle nor already synced). -/
def SyncState.is_pending : SyncState → Bool
  | .idle => false
  | .synced => false
  | _ => true

/-- `TransitionFrontierSyncState::is_synced`. -/
def SyncState.is_synced : SyncState → Bool
  | .synced => true
  | _ => false

/-- `matches!(sync, CommitPending { .. } | CommitSuccess { .. })`. -/
def SyncState.isCommit : SyncState → Bool
  | .commitPending _ => true
  | .commitSuccess _ => true
  | _ => false

/-- `TransitionFrontierSyncState::best_tip`: the sync target, when one is in
    flight. -/
def SyncState.best_tip : SyncState → Option Block
  | .idle => none
  | .synced => none
  | .init bt => some bt
  | .stakingLedgerPending bt => some bt
  | .stakingLedgerSuccess bt => some bt
  | .nextEpochLedgerPending bt => some bt
  | .nextEpochLedgerSuccess bt => some bt
  | .rootLedgerPending bt => some bt
  | .rootLedgerSuccess bt => some bt
  | .blocksPending bt => some bt
  | .blocksSuccess bt => some bt
  | .commitPending bt => some bt
  | .commitSuccess bt => some bt

/-- The slice of the node state read by the `BestTipUpdate` enabling
    condition. `consensusTake` (opaque consensus predicate), `wonSlotCmp`
    (the `PartialOrd` of the producer's in-flight won slot against a
    candidate block, `partial_cmp` style) and `isMe` (does a producer key
    belong to this node) are opaque functions of the state. -/
structure NodeState where
  sync : SyncState
  frontierBestTip : Option Block
  blacklist : List Nat
  producingWonSlot : Option Nat
  isMe : Nat → Bool
  wonSlotCmp : Nat → Block → Option Ordering
  consensusTake : Nat → Nat → Nat → Nat → Bool

/-- The sync target the candidate is compared against:
    `sync.best_tip().or(frontier.best_tip())`. -/
def NodeState.currentTarget (s : NodeState) : Option Block :=
  s.sync.best_tip.or s.frontierBestTip

/-- Enabling condition of `TransitionFrontierSyncAction::BestTipUpdate`,
    translated clause for clause from the source. -/
def bestTipUpdateIsEnabled (s : NodeState) (bestTip rootBlock : Block)
    (blocksInbetween : List Nat) : Bool :=
  (s.sync.is_pending || s.sync.is_synced)
  && !s.sync.isCommit
  && (match s.frontierBestTip with
      | some tip => bestTip.hash != tip.hash
      | none => false)
  && (match s.sync.best_tip with
      | some tip => bestTip.hash != tip.hash
      | none => true)
  && (match s.currentTarget with
      | some tip =>
        if tip.isGenesis && tip.height < bestTip.height then
          true
        else
          s.consensusTake tip.consensus bestTip.consensus tip.hash bestTip.hash
      | none => false)
  && !(s.blacklist.contains bestTip.hash)
  && !(s.blacklist.contains rootBlock.hash)
  && !(blocksInbetween.any (fun h => s.blacklist.contains h))
  && (match s.producingWonSlot with
      | some wonSlot =>
        if s.isMe bestTip.producer then true
        else decide (s.wonSlotCmp wonSlot bestTip = some Ordering.lt)
      | none => true)

/-- C2 (amended): `BestTipUpdate` is enabled only when the sync is in a
    non-commit state, the candidate is consensus-better than the current
    target (`consensus_take`, with the genesis-tip exception), none of the
    candidate's certificate hashes is blacklisted, and — when the node is
    producing a block for a won slot *and the candidate was not produced by
    the node itself* — the candidate compares strictly greater than the
    in-flight won slot. -/
theorem c2_best_tip_update_necessary (s : NodeState) (bestTip rootBlock : Block)
    (blocksInbetween : List Nat)
    (h : bestTipUpdateIsEnabled s bestTip rootBlock blocksInbetween = true) :
    s.sync.isCommit = false
    ∧ (∃ tip, s.currentTarget = some tip
        ∧ ((tip.isGenesis = true ∧ tip.height < bestTip.height)
            ∨ s.consensusTake tip.consensus bestTip.consensus tip.hash
                bestTip.hash = true))
    ∧ s.blacklist.contains bestTip.hash = false
    ∧ s.blacklist.contains rootBlock.hash = false
    ∧ (∀ hh ∈ blocksInbetween, s.blacklist.contains hh = false)
    ∧ (∀ wonSlot, s.producingWonSlot = some wonSlot →
        s.isMe bestTip.producer = false →
        s.wonSlotCmp wonSlot bestTip = some Ordering.lt) := by
  unfold bestTipUpdateIsEnabled at h
  simp only [Bool.and_eq_true, Bool.not_eq_true'] at h
  obtain ⟨⟨⟨⟨⟨⟨⟨⟨-, hcommit⟩, -⟩, -⟩, htake⟩, hbl1⟩, hbl2⟩, hbl3⟩, hslot⟩ := h
  refine ⟨hcommit, ?_, hbl1, hbl2, ?_, ?_⟩
  · cases htarget : s.currentTarget with
    | none => rw [htarget] at htake; exact absurd htake (by simp)
    | some tip =>
      rw [htarget] at htake
      refine ⟨tip, rfl, ?_⟩
      simp only [decide_eq_true_eq] at htake
      by_cases hg : tip.isGenesis = true ∧ tip.height < bestTip.height
      · exact Or.inl hg
      · rw [if_neg hg] at htake
        exact Or.inr htake
  · intro hh hmem
    rw [List.any_eq_false] at hbl3
    simpa using hbl3 hh hmem
  · intro wonSlot hws hnotme
    rw [hws] at hslot
    simp only [hnotme, Bool.false_eq_true, if_false, decide_eq_true_eq] at hslot
    exact hslot

/-- A concrete node state that is producing a won slot strictly better than
    the candidate, while the candidate is the node's own block. -/
def c2State : NodeState where
  sync := .blocksPending ⟨40, 12, false, 3, 0⟩
  frontierBestTip := some ⟨41, 11, false, 3, 0⟩
  blacklist := []
  producingWonSlot := some 5
  isMe := fun pk => pk = 7
  wonSlotCmp := fun _ _ => some Ordering.gt
  consensusTake := fun _ _ _ _ => true

/-- The candidate best tip of the C2 counterexample: produced by the node
    itself (producer key 7). -/
def c2BestTip : Block := ⟨42, 13, false, 7, 0⟩

/-- The root block of the C2 counterexample. -/
def c2RootBlock : Block := ⟨30, 9, false, 3, 0⟩

/-- Counterexample to C2 as stated: the action is enabled although the node
    is producing a block for a won slot that compares strictly greater than
    (is better than) the candidate best tip — the code skips the won-slot
    guard because the candidate is the node's own block. -/
theorem c2_best_tip_update_counterexample :
    bestTipUpdateIsEnabled c2State c2BestTip c2RootBlock [] = true
    ∧ c2State.producingWonSlot = some 5
    ∧ c2State.wonSlotCmp 5 c2BestTip = some Ordering.gt
    ∧ c2State.isMe c2BestTip.producer = true := by
  refine ⟨?_, rfl, rfl, ?_⟩
  · rfl
  · rfl

/-- Witness for the amended C2 theorem at the concrete enabled state. -/
theorem c2_best_tip_update_necessary_witness :
    c2State.sync.isCommit = false
    ∧ (∃ tip, c2State.currentTarget = some tip
        ∧ ((tip.isGenesis = true ∧ tip.height < c2BestTip.height)
            ∨ c2State.consensusTake tip.consensus c2BestTip.consensus tip.hash
                c2BestTip.hash = true))
    ∧ c2State.blacklist.contains c2BestTip.hash = false
    ∧ c2State.blacklist.contains c2RootBlock.hash = false
    ∧ (∀ hh ∈ ([] : List Nat), c2State.blacklist.contains hh = false)
    ∧ (∀ wonSlot, c2State.producingWonSlot = some wonSlot →
        c2State.isMe c2BestTip.producer = false →
        c2State.wonSlotCmp wonSlot c2BestTip = some Ordering.lt) :=
  c2_best_tip_update_necessary c2State c2BestTip c2RootBlock [] rfl

/-! ## C6 : `VrfMessage::to_group`
    Source: `vrf/src/message.rs` lines 34-88.

    The Pallas base field and its square-root routine come from external
    crypto crates (declared opaque by the spec); the embedding is generic in
    a field `F` with a square-root function `sqrtF` satisfying the ark-ff
    contract (`Some y` is a square root; `None` means no square root
    exists). The hex-decoded projection-point constant is the parameter
    `projectionPointZ`. Field division by zero is the Lean convention
    (`x / 0 = 0`); the source would panic there, and no claim touches that
    case. -/

/-- `VrfError::ToGroupError(t)`: no candidate x-coordinate was square. -/
inductive VrfError (F : Type) where
  | toGroupError (t : F)
deriving DecidableEq

/-- The curve equation right-hand side `y² = x³ + 5` (A = 0, B = 5) computed
    by the `get_y` closure. -/
def curveRhs {F : Type} [Field F] (x : F) : F :=
  x * x * x + (1 + 1 + 1 + 1 + 1)

/-- The three candidate x-coordinates `x1 = v`, `x2 = -(u + v)`,
    `x3 = u + y·y` derived from the hashed field element `t` via the conic
    projection (`field to conic`, `conic to s`, `s to v` in the source). -/
def toGroupCandidates {F : Type} [Field F] (projectionPointZ t : F) :
    F × F × F :=
  let two : F := 1 + 1
  let three : F := two + 1
  let projectionPointY : F := 1
  let conicC : F := three
  let uOver2 : F := 1
  let u : F := two
  let ct := conicC * t
  let s := two * ((ct * projectionPointY) + projectionPointZ) /
    ((ct * t) + 1)
  let conicZ := projectionPointZ - s
  let conicY := projectionPointY - (s * t)
  let v := (conicZ / conicY) - uOver2
  let y := conicY
  (v, -(u + v), u + (y * y))

/-- `VrfMessage::to_group` for a message hashing to `t`: try the three
    candidate x-coordinates in order and return the first point whose
    `y² = x³ + 5` has a square root, else `ToGroupError(t)`. -/
def to_group {F : Type} [Field F] (sqrtF : F → Option F)
    (projectionPointZ t : F) : Except (VrfError F) (F × F) :=
  match sqrtF (curveRhs (toGroupCandidates projectionPointZ t).1) with
  | some y => .ok ((toGroupCandidates projectionPointZ t).1, y)
  | none =>
    match sqrtF (curveRhs (toGroupCandidates projectionPointZ t).2.1) with
    | some y => .ok ((toGroupCandidates projectionPointZ t).2.1, y)
    | none =>
      match sqrtF (curveRhs (toGroupCandidates projectionPointZ t).2.2) with
      | some y => .ok ((toGroupCandidates projectionPointZ t).2.2, y)
      | none => .error (.toGroupError t)

/-- The first candidate x-coordinate `x1 = v`. -/
def vrfX1 {F : Type} [Field F] (projectionPointZ t : F) : F :=
  (toGroupCandidates projectionPointZ t).1

/-- The second candidate x-coordinate `x2 = -(u + v)`. -/
def vrfX2 {F : Type} [Field F] (projectionPointZ t : F) : F :=
  (toGroupCandidates projectionPointZ t).2.1

/-- The third candidate x-coordinate `x3 = u + y·y`. -/
def vrfX3 {F : Type} [Field F] (projectionPointZ t : F) : F :=
  (toGroupCandidates projectionPointZ t).2.2

/-- C6: `to_group` tries at most the three candidates `x1 = v`,
    `x2 = -(u+v)`, `x3 = u + y·y` in that fixed order, returns the curve
    point for the first x whose `y² = x³ + 5` has a square root, and returns
    `ToGroupError` exactly when none of the three is a square. -/
theorem c6_vrf_to_group {F : Type} [Field F] (sqrtF : F → Option F)
    (projectionPointZ t : F)
    (hsome : ∀ x y, sqrtF x = some y → y * y = x)
    (hnone : ∀ x, sqrtF x = none → ∀ y : F, y * y ≠ x) :
    (∀ p, to_group sqrtF projectionPointZ t = .ok p →
      p.2 * p.2 = curveRhs p.1
      ∧ (p.1 = vrfX1 projectionPointZ t
          ∨ (p.1 = vrfX2 projectionPointZ t
              ∧ ∀ y : F, y * y ≠ curveRhs (vrfX1 projectionPointZ t))
          ∨ (p.1 = vrfX3 projectionPointZ t
              ∧ (∀ y : F, y * y ≠ curveRhs (vrfX1 projectionPointZ t))
              ∧ (∀ y : F, y * y ≠ curveRhs (vrfX2 projectionPointZ t)))))
    ∧ (∀ e, to_group sqrtF projectionPointZ t = .error e →
        e = .toGroupError t
        ∧ (∀ y : F, y * y ≠ curveRhs (vrfX1 projectionPointZ t))
        ∧ (∀ y : F, y * y ≠ curveRhs (vrfX2 projectionPointZ t))
        ∧ (∀ y : F, y * y ≠ curveRhs (vrfX3 projectionPointZ t)))
    ∧ ((∃ y : F, y * y = curveRhs (vrfX1 projectionPointZ t)) →
        ∃ y, to_group sqrtF projectionPointZ t =
          .ok (vrfX1 projectionPointZ t, y))
    ∧ ((∀ y : F, y * y ≠ curveRhs (vrfX1 projectionPointZ t)) →
        (∃ y : F, y * y = curveRhs (vrfX2 projectionPointZ t)) →
        ∃ y, to_group sqrtF projectionPointZ t =
          .ok (vrfX2 projectionPointZ t, y))
    ∧ ((∀ y : F, y * y ≠ curveRhs (vrfX1 projectionPointZ t)) →
        (∀ y : F, y * y ≠ curveRhs (vrfX2 projectionPointZ t)) →
        (∃ y : F, y * y = curveRhs (vrfX3 projectionPointZ t)) →
        ∃ y, to_group sqrtF projectionPointZ t =
          .ok (vrfX3 projectionPointZ t, y)) := by
  unfold vrfX1 vrfX2 vrfX3 to_group
  set c := toGroupCandidates projectionPointZ t with hc
  cases h1 : sqrtF (curveRhs c.1) with
  | some y1 =>
    refine ⟨?_, ?_, ?_, ?_, ?_⟩
    · rintro p hp
      cases hp
      exact ⟨hsome _ _ h1, Or.inl rfl⟩
    · rintro e he
      cases he
    · intro _
      exact ⟨y1, rfl⟩
    · intro hno1 _
      exact absurd (hsome _ _ h1) (hno1 y1)
    · intro hno1 _ _
      exact absurd (hsome _ _ h1) (hno1 y1)
  | none =>
    have hno1 : ∀ y : F, y * y ≠ curveRhs c.1 := hnone _ h1
    cases h2 : sqrtF (curveRhs c.2.1) with
    | some y2 =>
      refine ⟨?_, ?_, ?_, ?_, ?_⟩
      · rintro p hp
        cases hp
        exact ⟨hsome _ _ h2, Or.inr (Or.inl ⟨rfl, hno1⟩)⟩
      · rintro e he
        cases he
      · rintro ⟨y, hy⟩
        exact absurd hy (hno1 y)
      · intro _ _
        exact ⟨y2, rfl⟩
      · intro _ hno2 _
        exact absurd (hsome _ _ h2) (hno2 y2)
    | none =>
      have hno2 : ∀ y : F, y * y ≠ curveRhs c.2.1 := hnone _ h2
      cases h3 : sqrtF (curveRhs c.2.2) with
      | some y3 =>
        refine ⟨?_, ?_, ?_, ?_, ?_⟩
        · rintro p hp
          cases hp
          exact ⟨hsome _ _ h3, Or.inr (Or.inr ⟨rfl, hno1, hno2⟩)⟩
        · rintro e he
          cases he
        · rintro ⟨y, hy⟩
          exact absurd hy (hno1 y)
        · rintro - ⟨y, hy⟩
          exact absurd hy (hno2 y)
        · intro _ _ _
          exact ⟨y3, rfl⟩
      | none =>
        have hno3 : ∀ y : F, y * y ≠ curveRhs c.2.2 := hnone _ h3
        refine ⟨?_, ?_, ?_, ?_, ?_⟩
        · rintro p hp
          cases hp
        · rintro e he
          cases he
          exact ⟨rfl, hno1, hno2, hno3⟩
        · rintro ⟨y, hy⟩
          exact absurd hy (hno1 y)
        · rintro - ⟨y, hy⟩
          exact absurd hy (hno2 y)
        · rintro - - ⟨y, hy⟩
          exact absurd hy (hno3 y)

instance : Fact (Nat.Prime 11) := ⟨by norm_num⟩

/-- A concrete square-root routine on `ZMod 11` for the C6 witness. -/
def sqrtZMod11 (x : ZMod 11) : Option (ZMod 11) :=
  ((List.range 11).find? (fun y => (y : ZMod 11) * (y : ZMod 11) = x)).map
    (fun n => (n : ZMod 11))

/-- Witness for C6 over the concrete field `ZMod 11`. -/
theorem c6_vrf_to_group_witness :
    (∀ p, to_group sqrtZMod11 2 3 = .ok p →
      p.2 * p.2 = curveRhs p.1
      ∧ (p.1 = vrfX1 (F := ZMod 11) 2 3
          ∨ (p.1 = vrfX2 (F := ZMod 11) 2 3
              ∧ ∀ y : ZMod 11, y * y ≠ curveRhs (vrfX1 (F := ZMod 11) 2 3))
          ∨ (p.1 = vrfX3 (F := ZMod 11) 2 3
              ∧ (∀ y : ZMod 11, y * y ≠ curveRhs (vrfX1 (F := ZMod 11) 2 3))
              ∧ (∀ y : ZMod 11, y * y ≠ curveRhs (vrfX2 (F := ZMod 11) 2 3)))))
    ∧ (∀ e, to_group sqrtZMod11 2 3 = .error e →
        e = .toGroupError 3
        ∧ (∀ y : ZMod 11, y * y ≠ curveRhs (vrfX1 (F := ZMod 11) 2 3))
        ∧ (∀ y : ZMod 11, y * y ≠ curveRhs (vrfX2 (F := ZMod 11) 2 3))
        ∧ (∀ y : ZMod 11, y * y ≠ curveRhs (vrfX3 (F := ZMod 11) 2 3)))
    ∧ ((∃ y : ZMod 11, y * y = curveRhs (vrfX1 (F := ZMod 11) 2 3)) →
        ∃ y, to_group sqrtZMod11 2 3 = .ok (vrfX1 (F := ZMod 11) 2 3, y))
    ∧ ((∀ y : ZMod 11, y * y ≠ curveRhs (vrfX1 (F := ZMod 11) 2 3)) →
        (∃ y : ZMod 11, y * y = curveRhs (vrfX2 (F := ZMod 11) 2 3)) →
        ∃ y, to_group sqrtZMod11 2 3 = .ok (vrfX2 (F := ZMod 11) 2 3, y))
    ∧ ((∀ y : ZMod 11, y * y ≠ curveRhs (vrfX1 (F := ZMod 11) 2 3)) →
        (∀ y : ZMod 11, y * y ≠ curveRhs (vrfX2 (F := ZMod 11) 2 3)) →
        (∃ y : ZMod 11, y * y = curveRhs (vrfX3 (F := ZMod 11) 2 3)) →
        ∃ y, to_group sqrtZMod11 2 3 = .ok (vrfX3 (F := ZMod 11) 2 3, y)) :=
  c6_vrf_to_group sqrtZMod11 2 3 (by decide) (by decide)

/-! ## C4 : `ZkAppCommand::valid_size`
    Source: `ledger/src/scan_state/transaction_logic.rs` lines 3663-3753
    (`zkapp_cost` and `valid_size`).

    `GENESIS_CONSTANT` and the proof-segment grouping
    (`group_by_zkapp_command_rev`) live outside the provided sources.
    Modelled from the spec: the cost weights are `10.26` (proof), `10.08`
    (signed-pair), `9.14` (signed-single) with cost limit `69.45`; the
    source's `f64` arithmetic is modelled as exact rationals; the segment
    counts `(P, S₁, S₂)` obtained from the grouping are taken as inputs.
    The per-update event/action element counts are summed exactly as in the
    source's `account_updates.fold`, with the call forest flattened to the
    list of its account updates (only sums are taken, so tree shape is
    irrelevant). -/

/-- The genesis constants consulted by `valid_size`. -/
structure GenesisConstant where
  zkappProofUpdateCost : ℚ
  zkappSignedSingleUpdateCost : ℚ
  zkappSignedPairUpdateCost : ℚ
  zkappTransactionCostLimit : ℚ
  maxEventElements : Nat
  maxActionElements : Nat

/-- The mainnet genesis constants named by the spec:
    `10.26·P + 10.08·S₂ + 9.14·S₁ < 69.45`, 100 event and action elements. -/
def genesisConstant : GenesisConstant where
  zkappProofUpdateCost := 10.26
  zkappSignedSingleUpdateCost := 9.14
  zkappSignedPairUpdateCost := 10.08
  zkappTransactionCostLimit := 69.45
  maxEventElements := 100
  maxActionElements := 100

/-- `ZkAppCommand::zkapp_cost`: the weighted segment cost. -/
def zkapp_cost (gc : GenesisConstant)
    (proofSegments signedSingleSegments signedPairSegments : Nat) : ℚ :=
  gc.zkappProofUpdateCost * proofSegments
    + gc.zkappSignedPairUpdateCost * signedPairSegments
    + gc.zkappSignedSingleUpdateCost * signedSingleSegments

/-- The events and actions attached to one account update (each event is a
    list of field elements; only lengths matter here). -/
structure AccountUpdateEvents where
  events : List (List Nat)
  actions : List (List Nat)

/-- `events_elements`: total number of field elements over a list of
    events. -/
def eventsElements (events : List (List Nat)) : Nat :=
  (events.map List.length).sum

/-- Total event elements over the account updates of a command. -/
def numEventElements (updates : List AccountUpdateEvents) : Nat :=
  (updates.map (fun u => eventsElements u.events)).sum

/-- Total action elements over the account updates of a command. -/
def numActionElements (updates : List AccountUpdateEvents) : Nat :=
  (updates.map (fun u => eventsElements u.actions)).sum

/-- `ZkAppCommand::valid_size`: accept when the weighted segment cost is
    strictly below the limit and event/action element counts are within
    their maxima, else report every violated condition joined by `;`. -/
def valid_size (gc : GenesisConstant)
    (proofSegments signedSingleSegments signedPairSegments : Nat)
    (updates : List AccountUpdateEvents) : Except String Unit :=
  let zkappCostWithinLimit : Bool :=
    decide (zkapp_cost gc proofSegments signedSingleSegments
      signedPairSegments < gc.zkappTransactionCostLimit)
  let validEventElements : Bool :=
    decide (numEventElements updates ≤ gc.maxEventElements)
  let validActionElements : Bool :=
    decide (numActionElements updates ≤ gc.maxActionElements)
  if zkappCostWithinLimit && validEventElements && validActionElements then
    .ok ()
  else
    .error (String.intercalate ";"
      ((if zkappCostWithinLimit then [] else ["zkapp transaction too expensive"])
        ++ (if validEventElements then [] else ["too many event elements"])
        ++ (if validActionElements then [] else ["too many action elements"])))

/-- C4: `valid_size` returns `Ok` exactly when the weighted segment cost is
    strictly below the cost limit and the event and action element totals
    are within their maxima; otherwise it returns the error naming every
    violated condition. -/
theorem c4_valid_size (gc : GenesisConstant)
    (proofSegments signedSingleSegments signedPairSegments : Nat)
    (updates : List AccountUpdateEvents) :
    (valid_size gc proofSegments signedSingleSegments signedPairSegments
        updates = .ok ()
      ↔ (zkapp_cost gc proofSegments signedSingleSegments signedPairSegments
            < gc.zkappTransactionCostLimit
          ∧ numEventElements updates ≤ gc.maxEventElements
          ∧ numActionElements updates ≤ gc.maxActionElements))
    ∧ (∀ e, valid_size gc proofSegments signedSingleSegments
          signedPairSegments updates = .error e →
        ¬(zkapp_cost gc proofSegments signedSingleSegments signedPairSegments
              < gc.zkappTransactionCostLimit
            ∧ numEventElements updates ≤ gc.maxEventElements
            ∧ numActionElements updates ≤ gc.maxActionElements)
        ∧ e = String.intercalate ";"
            ((if zkapp_cost gc proofSegments signedSingleSegments
                  signedPairSegments < gc.zkappTransactionCostLimit then []
              else ["zkapp transaction too expensive"])
              ++ (if numEventElements updates ≤ gc.maxEventElements then []
                  else ["too many event elements"])
              ++ (if numActionElements updates ≤ gc.maxActionElements then []
                  else ["too many action elements"]))) := by
  unfold valid_size
  by_cases hcost : zkapp_cost gc proofSegments signedSingleSegments
      signedPairSegments < gc.zkappTransactionCostLimit
  all_goals by_cases hev : numEventElements updates ≤ gc.maxEventElements
  all_goals by_cases hac : numActionElements updates ≤ gc.maxActionElements
  all_goals simp [hcost, hev, hac]

/-- Witness for C4 at concrete segment counts: 7 proof segments cost
    `71.82 ≥ 69.45`, and 101 action elements exceed the maximum, so both
    violations are reported. -/
theorem c4_valid_size_witness :
    ¬(zkapp_cost genesisConstant 7 0 0
          < genesisConstant.zkappTransactionCostLimit
        ∧ numEventElements [⟨[], [List.replicate 101 0]⟩]
            ≤ genesisConstant.maxEventElements
        ∧ numActionElements [⟨[], [List.replicate 101 0]⟩]
            ≤ genesisConstant.maxActionElements)
    ∧ valid_size genesisConstant 7 0 0 [⟨[], [List.replicate 101 0]⟩] =
        .error "zkapp transaction too expensive;too many action elements" := by
  have h := (c4_valid_size genesisConstant 7 0 0
    [⟨[], [List.replicate 101 0]⟩]).2
  have hcost : ¬(zkapp_cost genesisConstant 7 0 0
      < genesisConstant.zkappTransactionCostLimit) := by
    unfold zkapp_cost genesisConstant
    norm_num
  have hev : numEventElements [⟨[], [List.replicate 101 0]⟩]
      ≤ genesisConstant.maxEventElements := by
    unfold numEventElements eventsElements genesisConstant
    simp
  have hac : ¬(numActionElements [⟨[], [List.replicate 101 0]⟩]
      ≤ genesisConstant.maxActionElements) := by
    unfold numActionElements eventsElements genesisConstant
    simp
  have herr : valid_size genesisConstant 7 0 0
      [⟨[], [List.replicate 101 0]⟩] =
      .error "zkapp transaction too expensive;too many action elements" := by
    unfold valid_size
    rw [decide_eq_false hcost, decide_eq_true hev, decide_eq_false hac]
    rfl
  exact ⟨(h _ herr).1, herr⟩

/-! ## C1 / C8 : `apply_user_command_unchecked`
    Source: `ledger/src/scan_state/transaction_logic.rs` —
    `apply_user_command_unchecked` (lines 6968-7054), `compute_updates`
    (6828-6966), `pay_fee` / `pay_fee_impl` (7075-7147), `validate_time`
    (6789), `set_with_location` / `get_with_location` (6804, 7775),
    `validate_timing` and `validate_timing_with_min_balance_impl`
    (7607-7755), `validate_nonces` (7596), `sub_amount` / `add_amount`
    (7757-7767), and the `TransactionFailure` display strings (54-166).

    The `Account` type, its permission helpers and `min_balance_at_slot`,
    the `LedgerIntf` implementation, and the `CODA_RECEIPT_UC` Poseidon hash
    (`cons_signed_command_payload`) live outside the provided sources.
    Modelled from the spec: public keys and hashes are opaque scalars
    (`Nat`); permissions are authorization levels checked against the
    command's signature authorization (receive is checked against no
    authorization); the ledger is an association list from account id to
    account; the receipt-chain fold and the timed-account minimum balance
    are the opaque parameters `consSignedCommandPayload` and
    `minBalanceAtSlot`. Balances are u64 naturals, nonces u32 with wrapping
    increment. The timing-validation error strings are abstracted to the two
    constructors the source distinguishes by substring matching
    (`is insufficient` / `minimum balance`). -/

/-- Maximum value of a u64 balance / amount. -/
def u64Max : Nat := 2 ^ 64 - 1

/-- Modulus for the u32 nonce. -/
def u32Mod : Nat := 2 ^ 32

/-- The default token id (the fee token of every signed command). -/
def defaultTokenId : Nat := 1

/-- `AccountId`: a public key paired with a token id. -/
structure AccountId where
  publicKey : Nat
  tokenId : Nat
deriving DecidableEq, Repr

/-- Modelled from the spec: the required-authorization levels of the
    permission record. -/
inductive AuthRequired where
  | noneRequired
  | either
  | proofAuth
  | signatureAuth
  | impossible
  | both
deriving DecidableEq, Repr

/-- The authorization actually given with an operation. -/
inductive ControlTag where
  | proofGiven
  | signatureGiven
  | noneGiven
deriving DecidableEq, Repr

/-- Modelled from the spec: does a given authorization satisfy a required
    level. -/
def checkPermission (tag : ControlTag) (auth : AuthRequired) : Bool :=
  match auth with
  | .noneRequired => true
  | .either => tag = ControlTag.proofGiven || tag = ControlTag.signatureGiven
  | .proofAuth => tag = ControlTag.proofGiven
  | .signatureAuth => tag = ControlTag.signatureGiven
  | .impossible => false
  | .both => false

/-- The permission fields consulted by signed-command application (the
    source record has twelve fields; the others are never read here). -/
structure Permissions where
  send : AuthRequired
  receive : AuthRequired
  incrementNonce : AuthRequired
  setDelegate : AuthRequired
deriving DecidableEq, Repr

/-- Modelled from the spec: the default user-account permissions (signature
    for mutations, open receive). -/
def Permissions.userDefault : Permissions where
  send := .signatureAuth
  receive := .noneRequired
  incrementNonce := .signatureAuth
  setDelegate := .signatureAuth

/-- Account timing: untimed, or timed with a slot-dependent minimum
    balance. -/
inductive Timing where
  | untimed
  | timed (initialMinimumBalance cliffTime cliffAmount vestingPeriod
      vestingIncrement : Nat)
deriving DecidableEq, Repr

/-- The account fields consulted by signed-command application. -/
structure Account where
  publicKey : Nat
  tokenId : Nat
  balance : Nat
  nonce : Nat
  receiptChainHash : Nat
  delegate : Option Nat
  timing : Timing
  permissions : Permissions
deriving DecidableEq, Repr

/-- `Account::id`. -/
def Account.id (a : Account) : AccountId := ⟨a.publicKey, a.tokenId⟩

/-- `Account::create_with`: a fresh account for an id with the given
    balance and default permissions. -/
def Account.createWith (aid : AccountId) (balance : Nat) : Account where
  publicKey := aid.publicKey
  tokenId := aid.tokenId
  balance := balance
  nonce := 0
  receiptChainHash := 0
  delegate := none
  timing := .untimed
  permissions := .userDefault

/-- `Account::has_permission_to(Signature, Send)`. -/
def Account.hasPermissionToSend (a : Account) : Bool :=
  checkPermission .signatureGiven a.permissions.send

/-- `Account::has_permission_to(NoneGiven, Receive)`. -/
def Account.hasPermissionToReceive (a : Account) : Bool :=
  checkPermission .noneGiven a.permissions.receive

/-- `Account::has_permission_to(Signature, IncrementNonce)`. -/
def Account.hasPermissionToIncrementNonce (a : Account) : Bool :=
  checkPermission .signatureGiven a.permissions.incrementNonce

/-- `Account::has_permission_to(Signature, SetDelegate)`. -/
def Account.hasPermissionToSetDelegate (a : Account) : Bool :=
  checkPermission .signatureGiven a.permissions.setDelegate

/-- The ledger: an association list from account id to account (the
    `LedgerIntf` locations are the ids themselves). -/
abbrev Ledger : Type := List (AccountId × Account)

/-- Account lookup (`location_of_account` followed by `get`). -/
def lookupAccount (l : Ledger) (aid : AccountId) : Option Account :=
  (List.find? (fun p => p.1 = aid) l).map (·.2)

/-- `LedgerIntf::set` at an existing location. -/
def setExisting (l : Ledger) (aid : AccountId) (a : Account) : Ledger :=
  List.map (fun p => if p.1 = aid then (aid, a) else p) l

/-- `LedgerIntf::create_new_account`. -/
def createNewAccount (l : Ledger) (aid : AccountId) (a : Account) :
    Except String Ledger :=
  match lookupAccount l aid with
  | some _ => .error "account already exists"
  | none => .ok (l ++ [(aid, a)])

/-- `ExistingOrNew<Loc>`. -/
inductive ExistingOrNew where
  | existing (loc : AccountId)
  | new
deriving DecidableEq, Repr

/-- `get_with_location`: an existing account at its location, or a fresh
    zero-balance account (`Account::create_with(id, zero)`). -/
def getWithLocation (l : Ledger) (aid : AccountId) :
    ExistingOrNew × Account :=
  match lookupAccount l aid with
  | some a => (.existing aid, a)
  | none => (.new, Account.createWith aid 0)

/-- `set_with_location`: set at an existing location, or create the new
    account. -/
def setWithLocation (l : Ledger) (loc : ExistingOrNew) (a : Account) :
    Except String Ledger :=
  match loc with
  | .existing aid => .ok (setExisting l aid a)
  | .new =>
    match createNewAccount l a.id a with
    | .ok l2 => .ok l2
    | .error _ => .error "set_with_location"

/-- `sub_amount` on balances (`None` on underflow). -/
def subAmount (balance amount : Nat) : Option Nat :=
  if amount ≤ balance then some (balance - amount) else none

/-- `add_amount` on balances (`None` on u64 overflow). -/
def addAmount (balance amount : Nat) : Option Nat :=
  if balance + amount ≤ u64Max then some (balance + amount) else none

/-- `Amount::checked_sub`. -/
def checkedSub (amount fee : Nat) : Option Nat :=
  if fee ≤ amount then some (amount - fee) else none

/-- The transaction-failure cases reachable from signed-command
    application. -/
inductive TransactionFailure where
  | receiverNotPresent
  | amountInsufficientToCreateAccount
  | sourceInsufficientBalance
  | sourceMinimumBalanceViolation
  | overflow
  | updateNotPermittedBalance
  | updateNotPermittedDelegate
  | updateNotPermittedNonce
deriving DecidableEq, Repr

/-- `impl Display for TransactionFailure` (the subset above). -/
def TransactionFailure.display : TransactionFailure → String
  | .receiverNotPresent => "Receiver_not_present"
  | .amountInsufficientToCreateAccount => "Amount_insufficient_to_create_account"
  | .sourceInsufficientBalance => "Source_insufficient_balance"
  | .sourceMinimumBalanceViolation => "Source_minimum_balance_violation"
  | .overflow => "Overflow"
  | .updateNotPermittedBalance => "Update_not_permitted_balance"
  | .updateNotPermittedDelegate => "update_not_permitted_delegate"
  | .updateNotPermittedNonce => "Update_not_permitted_nonce"

/-- `TransactionStatus`. -/
inductive TransactionStatus where
  | applied
  | failed (failures : List (List TransactionFailure))
deriving DecidableEq, Repr

/-- The payment body of a signed command. -/
structure PaymentPayload where
  receiverPk : Nat
  amount : Nat
deriving DecidableEq, Repr

/-- The stake-delegation body (`SetDelegate { new_delegate }`). -/
structure StakeDelegationPayload where
  newDelegate : Nat
deriving DecidableEq, Repr

/-- `signed_command::Body`. -/
inductive SignedCommandBody where
  | payment (p : PaymentPayload)
  | stakeDelegation (s : StakeDelegationPayload)
deriving DecidableEq, Repr

/-- `signed_command::Common`. -/
structure SignedCommandCommon where
  fee : Nat
  feePayerPk : Nat
  nonce : Nat
  validUntil : Nat
  memo : List Nat
deriving DecidableEq, Repr

/-- `SignedCommandPayload`. -/
structure SignedCommandPayload where
  common : SignedCommandCommon
  body : SignedCommandBody
deriving DecidableEq, Repr

/-- `SignedCommand` (the signature itself is opaque and never read by the
    unchecked application; only the signer key is). -/
structure SignedCommand where
  payload : SignedCommandPayload
  signer : Nat
deriving DecidableEq, Repr

/-- `SignedCommand::fee_payer`. -/
def SignedCommand.feePayer (c : SignedCommand) : AccountId :=
  ⟨c.payload.common.feePayerPk, defaultTokenId⟩

/-- `SignedCommand::fee_token` (always the default token). -/
def SignedCommand.feeToken (_ : SignedCommand) : Nat := defaultTokenId

/-- `SignedCommand::receiver`. -/
def SignedCommand.receiver (c : SignedCommand) : AccountId :=
  match c.payload.body with
  | .payment p => ⟨p.receiverPk, defaultTokenId⟩
  | .stakeDelegation s => ⟨s.newDelegate, defaultTokenId⟩

/-- The opaque collaborators of the transaction logic:
    `cons_signed_command_payload` (the `CODA_RECEIPT_UC` Poseidon fold of a
    payload onto a receipt-chain hash) and `Account::min_balance_at_slot`
    (the vesting schedule of a timed account). -/
structure TxParams where
  consSignedCommandPayload : SignedCommandPayload → Nat → Nat
  minBalanceAtSlot : Timing → Nat → Nat

/-- The source's `TimingValidation` error cases, distinguished there by
    substring matching on the error message (`is insufficient` /
    `minimum balance`). -/
inductive TimingError where
  | insufficientBalance
  | invalidTiming
deriving DecidableEq, Repr

/-- The error strings forwarded by `validate_timing_with_min_balance`
    (abbreviated to the substrings the source matches on). -/
def TimingError.display : TimingError → String
  | .insufficientBalance => "the balance is insufficient"
  | .invalidTiming =>
    "applying the transaction would put the balance below the calculated minimum balance"

/-- `validate_timing_with_min_balance_impl`: the timing check, the timing to
    store back (a timed account becomes untimed once its minimum balance
    reaches zero), and the current minimum balance. -/
def validateTimingWithMinBalanceImpl (P : TxParams) (a : Account)
    (txnAmount slot : Nat) : (Bool × Bool) × Timing × Nat :=
  match a.timing with
  | .untimed =>
    match subAmount a.balance txnAmount with
    | none => ((true, false), .untimed, 0)
    | some _ => ((false, false), .untimed, 0)
  | .timed imb ct ca vp vi =>
    let t := Timing.timed imb ct ca vp vi
    let r :=
      match subAmount a.balance txnAmount with
      | none => ((true, false), imb)
      | some proposed =>
        let currMin := P.minBalanceAtSlot t slot
        if proposed < currMin then ((false, true), currMin)
        else ((false, false), currMin)
    if 0 < r.2 then (r.1, t, r.2) else (r.1, .untimed, 0)

/-- `validate_timing_with_min_balance` (the
    `InsufficientBalance(false)` case is unreachable; the source panics
    there). -/
def validateTimingWithMinBalance (P : TxParams) (a : Account)
    (txnAmount slot : Nat) : Except TimingError (Timing × Nat) :=
  match validateTimingWithMinBalanceImpl P a txnAmount slot with
  | ((true, _), _, _) => .error .insufficientBalance
  | ((false, true), _, _) => .error .invalidTiming
  | ((false, false), timing, minBalance) => .ok (timing, minBalance)

/-- `validate_timing`. -/
def validateTiming (P : TxParams) (a : Account) (txnAmount slot : Nat) :
    Except TimingError Timing :=
  match validateTimingWithMinBalance P a txnAmount slot with
  | .error e => .error e
  | .ok (timing, _) => .ok timing

/-- `timing_error_to_user_command_status`: map the timing error strings to
    transaction failures. -/
def timingErrorToUserCommandStatus :
    Except TimingError Timing → Except TransactionFailure Timing
  | .ok timing => .ok timing
  | .error .invalidTiming => .error .sourceMinimumBalanceViolation
  | .error .insufficientBalance => .error .sourceInsufficientBalance

/-- `validate_nonces`. -/
def validateNonces (txnNonce accountNonce : Nat) : Except String Unit :=
  if accountNonce = txnNonce then .ok ()
  else .error "Nonce in account different from nonce in transaction"

/-- `validate_time`: the command must not be expired. -/
def validate_time (validUntil currentGlobalSlot : Nat) :
    Except String Unit :=
  if currentGlobalSlot ≤ validUntil then .ok ()
  else .error "Current global slot greater than transaction expiry slot"

/-- `pay_fee_impl`: locate the fee payer (must exist), deduct the fee, check
    the nonce and timing, bump the nonce (u32 wrap) and fold the payload
    into the receipt chain hash. -/
def payFeeImpl (P : TxParams) (payload : SignedCommandPayload)
    (nonce : Nat) (feePayer : AccountId) (fee : Nat) (l : Ledger)
    (slot : Nat) : Except String (ExistingOrNew × Account) :=
  match getWithLocation l feePayer with
  | (.new, _) => .error "The fee-payer account does not exist"
  | (.existing loc, account) =>
    match subAmount account.balance fee with
    | none => .error "insufficient funds"
    | some balance =>
      match validateNonces nonce account.nonce with
      | .error e => .error e
      | .ok _ =>
        match validateTiming P account fee slot with
        | .error te => .error te.display
        | .ok timing =>
          .ok (.existing loc,
            { account with
              balance := balance
              nonce := (account.nonce + 1) % u32Mod
              receiptChainHash :=
                P.consSignedCommandPayload payload account.receiptChainHash
              timing := timing })

/-- `pay_fee`: signer and fee-token checks, then `pay_fee_impl`. -/
def pay_fee (P : TxParams) (c : SignedCommand) (signerPk : Nat) (l : Ledger)
    (slot : Nat) : Except String (ExistingOrNew × Account) :=
  if c.payload.common.feePayerPk ≠ signerPk then
    .error "Cannot pay fees from a public key that did not sign the transaction"
  else if c.feeToken ≠ defaultTokenId then
    .error "Cannot create transactions with fee_token different from the default"
  else
    payFeeImpl P c.payload c.payload.common.nonce c.feePayer
      c.payload.common.fee l slot

/-- `signed_command_applied::Body`. -/
inductive SignedCommandAppliedBody where
  | payments (newAccounts : List AccountId)
  | stakeDelegation (previousDelegate : Option Nat)
  | failedBody
deriving DecidableEq, Repr

/-- `SignedCommandApplied`. -/
structure SignedCommandApplied where
  command : SignedCommand
  status : TransactionStatus
  body : SignedCommandAppliedBody
deriving DecidableEq, Repr

/-- `Updates`: the accounts to write back and the applied body. -/
structure Updates where
  locatedAccounts : List (ExistingOrNew × Account)
  appliedBody : SignedCommandAppliedBody

/-- The `get_fee_payer_account` closure of the payment branch of
    `compute_updates`: deduct the payment amount from the (already
    fee-charged) fee payer and re-validate its timing. -/
def getFeePayerAccountForPayment (P : TxParams) (feePayerAccount : Account)
    (amount slot : Nat) : Except TransactionFailure Account :=
  match subAmount feePayerAccount.balance amount with
  | none => .error .sourceInsufficientBalance
  | some balance =>
    match timingErrorToUserCommandStatus
        (validateTiming P feePayerAccount amount slot) with
    | .error f => .error f
    | .ok timing =>
      .ok { feePayerAccount with balance := balance, timing := timing }

/-- The tail of the payment branch of `compute_updates`, after the fee payer
    survived the amount deduction: permissions, account-creation fee,
    receiver credit. Every failure here carries `reject_command = false`. -/
def paymentUpdatesAfterFee (accountCreationFee amount : Nat)
    (receiver feePayer : AccountId) (feePayerLocation : ExistingOrNew)
    (newFeePayerAccount : Account) (rcv : ExistingOrNew × Account) :
    Except (TransactionFailure × Bool) Updates :=
  if !newFeePayerAccount.hasPermissionToSend then
    .error (.updateNotPermittedBalance, false)
  else if !rcv.2.hasPermissionToReceive then
    .error (.updateNotPermittedBalance, false)
  else
    match (match rcv.1 with
           | .existing _ => some amount
           | .new => checkedSub amount accountCreationFee) with
    | none => .error (.amountInsufficientToCreateAccount, false)
    | some receiverAmount =>
      match addAmount rcv.2.balance receiverAmount with
      | none => .error (.overflow, false)
      | some balance =>
        let newAccounts :=
          match rcv.1 with
          | .new => [receiver]
          | .existing _ => []
        let receiverAccount := { rcv.2 with balance := balance }
        let updatedAccounts :=
          if feePayer = receiver then [(rcv.1, receiverAccount)]
          else [(rcv.1, receiverAccount),
                (feePayerLocation, newFeePayerAccount)]
        .ok { locatedAccounts := updatedAccounts
              appliedBody := .payments newAccounts }

/-- Every failure of the payment tail carries `reject_command = false`. -/
theorem paymentUpdatesAfterFee_flag_false (accountCreationFee amount : Nat)
    (receiver feePayer : AccountId) (feePayerLocation : ExistingOrNew)
    (newFeePayerAccount : Account) (rcv : ExistingOrNew × Account)
    (f : TransactionFailure) (b : Bool)
    (h : paymentUpdatesAfterFee accountCreationFee amount receiver feePayer
      feePayerLocation newFeePayerAccount rcv = .error (f, b)) :
    b = false := by
  unfold paymentUpdatesAfterFee at h
  split at h
  · cases h; rfl
  split at h
  · cases h; rfl
  split at h
  · cases h; rfl
  split at h
  · cases h; rfl
  · simp at h

/-- The payment fee-payer re-check fails only with the two insufficiency
    failures. -/
theorem getFeePayerAccountForPayment_error_cases (P : TxParams)
    (feePayerAccount : Account) (amount slot : Nat) (f : TransactionFailure)
    (h : getFeePayerAccountForPayment P feePayerAccount amount slot =
      .error f) :
    f = .sourceInsufficientBalance ∨ f = .sourceMinimumBalanceViolation := by
  unfold getFeePayerAccountForPayment at h
  split at h
  · cases h
    exact Or.inl rfl
  · split at h
    next f2 heq =>
      cases h
      unfold timingErrorToUserCommandStatus at heq
      split at heq
      · cases heq
      · cases heq
        exact Or.inr rfl
      · cases heq
        exact Or.inl rfl
    next => cases h

/-- `compute_updates`: the body computation. The `Bool` in the error is the
    source's `reject_command` flag — `true` exactly on the payment path
    where the fee payer cannot cover the amount (the OCaml exception
    path). -/
def compute_updates (P : TxParams) (accountCreationFee : Nat)
    (receiver : AccountId) (l : Ledger) (slot : Nat) (c : SignedCommand)
    (feePayer : AccountId) (feePayerAccount : Account)
    (feePayerLocation : ExistingOrNew) :
    Except (TransactionFailure × Bool) Updates :=
  match c.payload.body with
  | .stakeDelegation _ =>
    match (getWithLocation l receiver).1 with
    | .new => .error (.receiverNotPresent, false)
    | .existing _ =>
      if !feePayerAccount.hasPermissionToSetDelegate then
        .error (.updateNotPermittedDelegate, false)
      else
        let previousDelegate := feePayerAccount.delegate
        match timingErrorToUserCommandStatus
            (validateTiming P feePayerAccount 0 slot) with
        | .error f => .error (f, false)
        | .ok timing =>
          .ok { locatedAccounts := [(feePayerLocation,
                  { feePayerAccount with
                    delegate := some receiver.publicKey
                    timing := timing })]
                appliedBody := .stakeDelegation previousDelegate }
  | .payment payment =>
    match getFeePayerAccountForPayment P feePayerAccount payment.amount
        slot with
    | .error e => .error (e, true)
    | .ok newFeePayerAccount =>
      paymentUpdatesAfterFee accountCreationFee payment.amount receiver
        feePayer feePayerLocation newFeePayerAccount
        (if feePayer = receiver then (feePayerLocation, newFeePayerAccount)
         else getWithLocation l receiver)

/-- A `reject_command = true` failure of `compute_updates` arises exactly
    from the payment path on which the fee payer cannot cover the amount
    (insufficient balance, or the re-validated timing minimum). -/
theorem compute_updates_reject_inversion (P : TxParams)
    (accountCreationFee : Nat) (receiver : AccountId) (l : Ledger)
    (slot : Nat) (c : SignedCommand) (feePayer : AccountId)
    (feePayerAccount : Account) (feePayerLocation : ExistingOrNew)
    (f : TransactionFailure)
    (h : compute_updates P accountCreationFee receiver l slot c feePayer
      feePayerAccount feePayerLocation = .error (f, true)) :
    ∃ p, c.payload.body = .payment p
      ∧ getFeePayerAccountForPayment P feePayerAccount p.amount slot =
          .error f
      ∧ (f = .sourceInsufficientBalance
          ∨ f = .sourceMinimumBalanceViolation) := by
  unfold compute_updates at h
  cases hbody : c.payload.body with
  | stakeDelegation s =>
    rw [hbody] at h
    simp only at h
    split at h
    · simp at h
    · split at h
      · simp at h
      · split at h
        · simp at h
        · simp at h
  | payment p =>
    rw [hbody] at h
    simp only at h
    cases hG : getFeePayerAccountForPayment P feePayerAccount p.amount
        slot with
    | error e =>
      rw [hG] at h
      simp only [Except.error.injEq, Prod.mk.injEq] at h
      obtain ⟨rfl, -⟩ := h
      exact ⟨p, rfl, hG, getFeePayerAccountForPayment_error_cases _ _ _ _ _ hG⟩
    | ok a =>
      rw [hG] at h
      simp only at h
      have := paymentUpdatesAfterFee_flag_false _ _ _ _ _ _ _ _ _ h
      cases this

/-- The write-back loop of the `Ok` branch (`set_with_location` per located
    account, with `?` propagation leaving earlier writes in place). -/
def writeAll (l : Ledger) : List (ExistingOrNew × Account) →
    Except String Unit × Ledger
  | [] => (.ok (), l)
  | (loc, a) :: rest =>
    match setWithLocation l loc a with
    | .error e => (.error e, l)
    | .ok l2 => writeAll l2 rest

/-- `apply_user_command_unchecked`. The returned ledger models the final
    state of the `&mut L` parameter (mutations persist even when an `Err` is
    returned). -/
def apply_user_command_unchecked (P : TxParams) (accountCreationFee : Nat)
    (slot : Nat) (l : Ledger) (c : SignedCommand) :
    Except String SignedCommandApplied × Ledger :=
  match validate_time c.payload.common.validUntil slot with
  | .error e => (.error e, l)
  | .ok _ =>
    match pay_fee P c c.signer l slot with
    | .error e => (.error e, l)
    | .ok (feePayerLocation, feePayerAccount) =>
      if !feePayerAccount.hasPermissionToSend then
        (.error TransactionFailure.updateNotPermittedBalance.display, l)
      else if !feePayerAccount.hasPermissionToIncrementNonce then
        (.error TransactionFailure.updateNotPermittedNonce.display, l)
      else
        match setWithLocation l feePayerLocation feePayerAccount with
        | .error e => (.error e, l)
        | .ok l1 =>
          match compute_updates P accountCreationFee c.receiver l1 slot c
              c.feePayer feePayerAccount feePayerLocation with
          | .ok u =>
            match writeAll l1 u.locatedAccounts with
            | (.ok _, l2) =>
              (.ok { command := c, status := .applied
                     body := u.appliedBody }, l2)
            | (.error e, l2) => (.error e, l2)
          | .error (failure, false) =>
            (.ok { command := c, status := .failed [[failure]]
                   body := .failedBody }, l1)
          | .error (failure, true) => (.error failure.display, l1)

/-- Setting an account at an id that is present makes lookup return it. -/
theorem lookup_setExisting_same (l : Ledger) (aid : AccountId)
    (a0 a : Account) (h : lookupAccount l aid = some a0) :
    lookupAccount (setExisting l aid a) aid = some a := by
  induction l with
  | nil => simp [lookupAccount] at h
  | cons p rest ih =>
    unfold lookupAccount setExisting at *
    simp only [List.map_cons, List.find?_cons] at *
    by_cases hp : p.1 = aid
    · simp [hp]
    · simp only [hp, decide_False, if_false, if_neg hp] at h ⊢
      exact ih h

/-- Setting an account at one id leaves every other id's lookup
    unchanged. -/
theorem lookup_setExisting_other (l : Ledger) (aid aid' : AccountId)
    (a : Account) (h : aid' ≠ aid) :
    lookupAccount (setExisting l aid a) aid' = lookupAccount l aid' := by
  induction l with
  | nil => simp [lookupAccount, setExisting]
  | cons p rest ih =>
    unfold lookupAccount setExisting at *
    simp only [List.map_cons, List.find?_cons] at *
    by_cases hp : p.1 = aid
    · have h1 : ¬(aid = aid') := fun hh => h hh.symm
      have h2 : ¬(p.1 = aid') := by rw [hp]; exact h1
      simpa [hp, h1, h2] using ih
    · simp only [if_neg hp]
      by_cases hq : p.1 = aid'
      · simp [hq]
      · simp only [hq, decide_False, if_false]
        exact ih

/-- Wrapping increment never returns to the same nonce. -/
theorem nonce_incr_ne (n : Nat) : (n + 1) % u32Mod ≠ n := by
  unfold u32Mod
  omega

/-- Successful `pay_fee` charges the fee on the existing fee-payer account:
    fee deducted from the balance, nonce bumped (u32 wrap), payload folded
    into the receipt chain hash. -/
theorem pay_fee_ok_facts (P : TxParams) (c : SignedCommand) (l : Ledger)
    (slot : Nat) (acc0 acc1 : Account) (loc : ExistingOrNew)
    (hacc : lookupAccount l c.feePayer = some acc0)
    (hfee : pay_fee P c c.signer l slot = .ok (loc, acc1)) :
    loc = .existing c.feePayer
    ∧ c.payload.common.fee ≤ acc0.balance
    ∧ acc1.balance + c.payload.common.fee = acc0.balance
    ∧ acc1.nonce = (acc0.nonce + 1) % u32Mod
    ∧ acc1.receiptChainHash =
        P.consSignedCommandPayload c.payload acc0.receiptChainHash := by
  unfold pay_fee at hfee
  split at hfee
  · cases hfee
  split at hfee
  · cases hfee
  unfold payFeeImpl at hfee
  rw [show getWithLocation l c.feePayer = (.existing c.feePayer, acc0) by
    unfold getWithLocation; rw [hacc]] at hfee
  simp only at hfee
  cases hsub : subAmount acc0.balance c.payload.common.fee with
  | none => rw [hsub] at hfee; cases hfee
  | some balance =>
    rw [hsub] at hfee
    simp only at hfee
    split at hfee
    · cases hfee
    split at hfee
    · cases hfee
    unfold subAmount at hsub
    split at hsub
    · cases hsub
      cases hfee
      refine ⟨rfl, by assumption, ?_, rfl, rfl⟩
      dsimp only
      omega
    · cases hsub

/-- C1: when the body computation of a signed command fails with an ordinary
    transaction failure (`reject_command = false`),
    `apply_user_command_unchecked` still charges the fee on the fee payer
    (balance reduced, nonce bumped, receipt chain updated), returns status
    `Failed` carrying exactly that failure, and mutates no account other
    than the fee payer; on the distinguished reject path
    (`reject_command = true`, the payment whose fee payer cannot cover the
    amount) it instead returns a hard `Err`, so the command is never given a
    status. -/
theorem c1_apply_user_command_failure (P : TxParams)
    (accountCreationFee slot : Nat) (l : Ledger) (c : SignedCommand)
    (acc0 feePayerAccount : Account) (f : TransactionFailure)
    (hacc : lookupAccount l c.feePayer = some acc0)
    (htime : validate_time c.payload.common.validUntil slot = .ok ())
    (hfee : pay_fee P c c.signer l slot =
      .ok (.existing c.feePayer, feePayerAccount))
    (hsend : feePayerAccount.hasPermissionToSend = true)
    (hnonce : feePayerAccount.hasPermissionToIncrementNonce = true) :
    (c.payload.common.fee ≤ acc0.balance
      ∧ feePayerAccount.balance + c.payload.common.fee = acc0.balance
      ∧ feePayerAccount.nonce = (acc0.nonce + 1) % u32Mod
      ∧ feePayerAccount.receiptChainHash =
          P.consSignedCommandPayload c.payload acc0.receiptChainHash
      ∧ lookupAccount (setExisting l c.feePayer feePayerAccount) c.feePayer =
          some feePayerAccount)
    ∧ (compute_updates P accountCreationFee c.receiver
          (setExisting l c.feePayer feePayerAccount) slot c c.feePayer
          feePayerAccount (.existing c.feePayer) = .error (f, false) →
        apply_user_command_unchecked P accountCreationFee slot l c =
          (.ok { command := c, status := .failed [[f]], body := .failedBody },
            setExisting l c.feePayer feePayerAccount)
        ∧ ∀ aid, aid ≠ c.feePayer →
            lookupAccount (setExisting l c.feePayer feePayerAccount) aid =
              lookupAccount l aid)
    ∧ (compute_updates P accountCreationFee c.receiver
          (setExisting l c.feePayer feePayerAccount) slot c c.feePayer
          feePayerAccount (.existing c.feePayer) = .error (f, true) →
        apply_user_command_unchecked P accountCreationFee slot l c =
          (.error f.display, setExisting l c.feePayer feePayerAccount)
        ∧ (∃ p, c.payload.body = .payment p
            ∧ (f = .sourceInsufficientBalance
                ∨ f = .sourceMinimumBalanceViolation))) := by
  obtain ⟨-, hle, hbal, hn, hr⟩ :=
    pay_fee_ok_facts P c l slot acc0 feePayerAccount _ hacc hfee
  have happly : ∀ r, compute_updates P accountCreationFee c.receiver
      (setExisting l c.feePayer feePayerAccount) slot c c.feePayer
      feePayerAccount (.existing c.feePayer) = r →
      apply_user_command_unchecked P accountCreationFee slot l c =
        (match r with
         | .ok u =>
           match writeAll (setExisting l c.feePayer feePayerAccount)
               u.locatedAccounts with
           | (.ok _, l2) =>
             (.ok { command := c, status := .applied
                    body := u.appliedBody }, l2)
           | (.error e, l2) => (.error e, l2)
         | .error (failure, false) =>
           (.ok { command := c, status := .failed [[failure]]
                  body := .failedBody },
             setExisting l c.feePayer feePayerAccount)
         | .error (failure, true) =>
           (.error failure.display,
             setExisting l c.feePayer feePayerAccount)) := by
    intro r hr2
    unfold apply_user_command_unchecked
    rw [htime, hfee]
    simp only [hsend, hnonce, Bool.not_true, Bool.false_eq_true, if_false]
    rw [show setWithLocation l (.existing c.feePayer) feePayerAccount =
      .ok (setExisting l c.feePayer feePayerAccount) from rfl]
    simp only
    rw [hr2]
  refine ⟨⟨hle, hbal, hn, hr, lookup_setExisting_same l _ acc0 _ hacc⟩,
    ?_, ?_⟩
  · intro hcomp
    refine ⟨happly _ hcomp, ?_⟩
    intro aid haid
    exact lookup_setExisting_other l c.feePayer aid feePayerAccount haid
  · intro hcomp
    refine ⟨happly _ hcomp, ?_⟩
    obtain ⟨p, hbody, -, hcases⟩ :=
      compute_updates_reject_inversion _ _ _ _ _ _ _ _ _ _ hcomp
    exact ⟨p, hbody, hcases⟩

/-- Opaque collaborators for the concrete scenarios: the receipt-chain fold
    is successor, timed minimum balance is zero. -/
def scenarioParams : TxParams where
  consSignedCommandPayload := fun _ h => h + 1
  minBalanceAtSlot := fun _ _ => 0

/-- The fee payer of the concrete scenarios: balance 100, nonce 5. -/
def scenarioAccount : Account where
  publicKey := 10
  tokenId := 1
  balance := 100
  nonce := 5
  receiptChainHash := 77
  delegate := none
  timing := .untimed
  permissions := .userDefault

/-- A one-account ledger holding the scenario fee payer. -/
def scenarioLedger : Ledger := [(⟨10, 1⟩, scenarioAccount)]

/-- The scenario fee payer after the fee of 10 is charged: balance 90,
    nonce 6, receipt chain hash folded once. -/
def chargedAccount : Account :=
  { scenarioAccount with balance := 90, nonce := 6, receiptChainHash := 78 }

/-- A stake delegation to an account that does not exist in the scenario
    ledger (an ordinary `ReceiverNotPresent` failure). -/
def delegationCmd : SignedCommand where
  payload :=
    { common := { fee := 10, feePayerPk := 10, nonce := 5, validUntil := 1000
                  memo := [] }
      body := .stakeDelegation ⟨20⟩ }
  signer := 10

/-- A payment of 200 the fee payer (90 after the fee) cannot cover — the
    reject-command path. -/
def paymentCmd : SignedCommand where
  payload :=
    { common := { fee := 10, feePayerPk := 10, nonce := 5, validUntil := 1000
                  memo := [] }
      body := .payment ⟨20, 200⟩ }
  signer := 10

/-- Witness for C1 at the delegation scenario: the failure is recorded as
    status `Failed([[ReceiverNotPresent]])`, the fee stays charged, and no
    other account changes. -/
theorem c1_apply_user_command_failure_witness :
    apply_user_command_unchecked scenarioParams 1 3 scenarioLedger
        delegationCmd =
      (.ok { command := delegationCmd
             status := .failed [[.receiverNotPresent]]
             body := .failedBody },
        setExisting scenarioLedger delegationCmd.feePayer chargedAccount)
    ∧ ∀ aid, aid ≠ delegationCmd.feePayer →
        lookupAccount
            (setExisting scenarioLedger delegationCmd.feePayer chargedAccount)
            aid =
          lookupAccount scenarioLedger aid :=
  (c1_apply_user_command_failure scenarioParams 1 3 scenarioLedger
    delegationCmd scenarioAccount chargedAccount .receiverNotPresent
    rfl rfl rfl rfl rfl).2.1 rfl

/-- C8: on the reject-command path the fee payer's charged account (fee
    deducted, nonce bumped, receipt chain updated) has already been written
    into the ledger before the error is detected, and
    `apply_user_command_unchecked` returns `Err` without undoing that write:
    the returned ledger differs from the input ledger at the fee payer. -/
theorem c8_reject_path_ledger_mutated (P : TxParams)
    (accountCreationFee slot : Nat) (l : Ledger) (c : SignedCommand)
    (acc0 feePayerAccount : Account) (f : TransactionFailure)
    (hacc : lookupAccount l c.feePayer = some acc0)
    (htime : validate_time c.payload.common.validUntil slot = .ok ())
    (hfee : pay_fee P c c.signer l slot =
      .ok (.existing c.feePayer, feePayerAccount))
    (hsend : feePayerAccount.hasPermissionToSend = true)
    (hnonce : feePayerAccount.hasPermissionToIncrementNonce = true)
    (hcomp : compute_updates P accountCreationFee c.receiver
      (setExisting l c.feePayer feePayerAccount) slot c c.feePayer
      feePayerAccount (.existing c.feePayer) = .error (f, true)) :
    apply_user_command_unchecked P accountCreationFee slot l c =
      (.error f.display, setExisting l c.feePayer feePayerAccount)
    ∧ lookupAccount (setExisting l c.feePayer feePayerAccount) c.feePayer =
        some feePayerAccount
    ∧ feePayerAccount.balance + c.payload.common.fee = acc0.balance
    ∧ feePayerAccount.nonce = (acc0.nonce + 1) % u32Mod
    ∧ feePayerAccount.receiptChainHash =
        P.consSignedCommandPayload c.payload acc0.receiptChainHash
    ∧ lookupAccount (setExisting l c.feePayer feePayerAccount) c.feePayer ≠
        lookupAccount l c.feePayer := by
  obtain ⟨-, hle, hbal, hn, hr⟩ :=
    pay_fee_ok_facts P c l slot acc0 feePayerAccount _ hacc hfee
  have hsame := lookup_setExisting_same l c.feePayer acc0 feePayerAccount hacc
  refine ⟨?_, hsame, hbal, hn, hr, ?_⟩
  · unfold apply_user_command_unchecked
    rw [htime, hfee]
    simp only [hsend, hnonce, Bool.not_true, Bool.false_eq_true, if_false]
    rw [show setWithLocation l (.existing c.feePayer) feePayerAccount =
      .ok (setExisting l c.feePayer feePayerAccount) from rfl]
    simp only
    rw [hcomp]
  · rw [hsame, hacc]
    intro heq
    have hacceq : feePayerAccount = acc0 := by
      injection heq
    have : feePayerAccount.nonce = acc0.nonce := by rw [hacceq]
    rw [hn] at this
    exact nonce_incr_ne acc0.nonce this

/-- Witness for C8 at the underfunded-payment scenario: the call returns
    `Err(Source_insufficient_balance)` yet the ledger keeps the charged fee
    payer. -/
theorem c8_reject_path_ledger_mutated_witness :
    apply_user_command_unchecked scenarioParams 1 3 scenarioLedger
        paymentCmd =
      (.error TransactionFailure.sourceInsufficientBalance.display,
        setExisting scenarioLedger paymentCmd.feePayer chargedAccount)
    ∧ lookupAccount
        (setExisting scenarioLedger paymentCmd.feePayer chargedAccount)
        paymentCmd.feePayer = some chargedAccount
    ∧ chargedAccount.balance + paymentCmd.payload.common.fee =
        scenarioAccount.balance
    ∧ chargedAccount.nonce = (scenarioAccount.nonce + 1) % u32Mod
    ∧ chargedAccount.receiptChainHash =
        scenarioParams.consSignedCommandPayload paymentCmd.payload
          scenarioAccount.receiptChainHash
    ∧ lookupAccount
        (setExisting scenarioLedger paymentCmd.feePayer chargedAccount)
        paymentCmd.feePayer ≠ lookupAccount scenarioLedger paymentCmd.feePayer :=
  c8_reject_path_ledger_mutated scenarioParams 1 3 scenarioLedger paymentCmd
    scenarioAccount chargedAccount .sourceInsufficientBalance
    rfl rfl rfl rfl rfl rfl

end Spec2Proof
